import Mathlib

/-!
Shallow embedding of the download-dispatch layer of
`src/yt_vid_downloader/main.py`: the admission gate (an asyncio counting
semaphore), the URL validator (a regular-expression match), the background
download worker, and the `POST /download` HTTP handler.
-/

/-- Configuration constant `MAX_CONCURRENT_DOWNLOADS` from main.py. -/
def MAX_CONCURRENT_DOWNLOADS : Nat := 3

/-- Configuration constant `MAX_VIDEO_DURATION_SECONDS` from main.py. -/
def MAX_VIDEO_DURATION_SECONDS : Nat := 3600

/-- Configuration constant `DOWNLOAD_DIR` from main.py. -/
def DOWNLOAD_DIR : List Char := "downloads".toList

/-- State of the counting semaphore `download_semaphore`.  `value` is the
semaphore's internal counter (free slots); `holders` is the number of worker
invocations currently inside the `async with download_semaphore` block. -/
structure Gate where
  value : Nat
  holders : Nat
deriving DecidableEq, Repr

/-- The semaphore as constructed at import time:
`asyncio.Semaphore(MAX_CONCURRENT_DOWNLOADS)`, no holders yet. -/
def initialGate : Gate := ⟨MAX_CONCURRENT_DOWNLOADS, 0⟩

/-- Effect of a successful (non-blocked) semaphore acquire: the counter
decrements and the acquiring worker becomes a holder. -/
def Gate.acquireSlot (g : Gate) : Gate := ⟨g.value - 1, g.holders + 1⟩

/-- Effect of a semaphore release performed by a current holder (the exit of
the `async with` block): the counter increments and the holder leaves. -/
def Gate.releaseSlot (g : Gate) : Gate := ⟨g.value + 1, g.holders - 1⟩

/-- Model of `asyncio.Semaphore.locked()`: true iff the internal counter is
zero.  Used by the handler's non-blocking saturation check. -/
def Gate.isLocked (g : Gate) : Bool := g.value == 0

/-- Reachable semaphore states: starting from `initialGate`, any interleaving
of acquires (which only fire when the counter is positive; a blocked acquirer
simply waits) and releases by current holders.  Any number of dispatches may
be waiting to acquire; that number does not appear in the state because a
waiting dispatch holds no slot. -/
inductive GateReachable : Gate → Prop
  | init : GateReachable initialGate
  | acq {g : Gate} : GateReachable g → 0 < g.value → GateReachable g.acquireSlot
  | rel {g : Gate} : GateReachable g → 0 < g.holders → GateReachable g.releaseSlot

/-- Invariant of the semaphore: free slots plus holders always total
`MAX_CONCURRENT_DOWNLOADS`. -/
theorem gateReachable_value_add_holders {g : Gate}
    (hg : GateReachable g) : g.value + g.holders = MAX_CONCURRENT_DOWNLOADS := by
  induction hg with
  | init => rfl
  | acq _ hv ih => simp only [Gate.acquireSlot] at *; omega
  | rel _ hh ih => simp only [Gate.releaseSlot] at *; omega

/-- C1: in every reachable state of the system, at most
`MAX_CONCURRENT_DOWNLOADS` (= 3) workers hold a slot of the counting gate
simultaneously, however many dispatches have been started. -/
theorem gate_holders_le_max (g : Gate) (hg : GateReachable g) :
    g.holders ≤ MAX_CONCURRENT_DOWNLOADS := by
  have h := gateReachable_value_add_holders hg
  omega

/-- Witness for C1 at a concrete reachable state with two holders. -/
theorem gate_holders_le_max_witness :
    (initialGate.acquireSlot.acquireSlot).holders ≤ MAX_CONCURRENT_DOWNLOADS :=
  gate_holders_le_max _ ((GateReachable.init.acq (by decide)).acq (by decide))

/-!
URL validator.  The handler `download_video` matches the submitted URL against
the compiled pattern (main.py lines 296-300):

  `^(https?://)?(www\.)?(youtube\.com|youtu\.be)/`
  `(watch\?v=|embed/|v/|.+\?v=)?([a-zA-Z0-9_-]{11})(.*)?$`

via `re.match` (anchored at the start; `$` matches at the end of the string
or just before one trailing newline; `.` matches every character except a
newline).  The matcher below decides whether some decomposition of the input
witnesses the pattern, which coincides with Python's backtracking acceptance.
-/

/-- Character class `[a-zA-Z0-9_-]` of the video-identifier group. -/
def isIdChar (c : Char) : Bool := c.isAlphanum || c == '_' || c == '-'

/-- Characters matched by `.` in the pattern (everything but a newline). -/
def notNL (c : Char) : Bool := c != '\n'

/-- Matcher for the trailing `(.*)?$` of the pattern: the remainder is
newline-free, or is newline-free up to a single final newline (which `$`
tolerates). -/
def matchRest (r : List Char) : Bool :=
  r.all notNL || (r.dropLast.all notNL && (r.getLast? == some '\n'))

/-- Matcher for `([a-zA-Z0-9_-]{11})(.*)?$`: an 11-character identifier
followed by an admissible remainder. -/
def hasIdAt (r : List Char) : Bool :=
  decide (11 ≤ r.length) && (r.take 11).all isIdChar && matchRest (r.drop 11)

/-- Removes a literal expected head from the input, giving the remainder when
the head matches. -/
def stripPfx : List Char → List Char → Option (List Char)
  | [], r => some r
  | _ :: _, [] => none
  | p :: ps, c :: cs => if p = c then stripPfx ps cs else none

/-- Matches a literal piece of the pattern and hands the remainder to the
continuation. -/
def afterPfx (p r : List Char) (k : List Char → Bool) : Bool :=
  match stripPfx p r with
  | some t => k t
  | none => false

/-- Matcher for the alternative `.+\?v=` followed by the identifier: some
nonempty newline-free head, then the literal `?v=`, then the identifier. -/
def scanQV : List Char → Bool
  | [] => false
  | c :: rs => notNL c && (afterPfx "?v=".toList rs hasIdAt || scanQV rs)

/-- Matcher for what follows the host and slash:
`(watch\?v=|embed/|v/|.+\?v=)?([a-zA-Z0-9_-]{11})(.*)?$`. -/
def tailMatch (r : List Char) : Bool :=
  afterPfx "watch?v=".toList r hasIdAt ||
  afterPfx "embed/".toList r hasIdAt ||
  afterPfx "v/".toList r hasIdAt ||
  scanQV r ||
  hasIdAt r

/-- Matcher for `(youtube\.com|youtu\.be)/` followed by the tail. -/
def hostMatch (r : List Char) : Bool :=
  afterPfx "youtube.com/".toList r tailMatch ||
  afterPfx "youtu.be/".toList r tailMatch

/-- Matcher for the optional `(www\.)?` followed by the host part. -/
def wwwMatch (r : List Char) : Bool :=
  afterPfx "www.".toList r hostMatch || hostMatch r

/-- Matcher for the whole pattern, starting with the optional scheme
`(https?://)?`. -/
def matchYoutube (s : List Char) : Bool :=
  afterPfx "http://".toList s wwwMatch ||
  afterPfx "https://".toList s wwwMatch ||
  wwwMatch s

/-- The server-side URL validation performed by `download_video`:
`youtube_regex.match(youtube_url)` succeeds. -/
def validate (s : String) : Bool := matchYoutube s.data

/-- Shapes the optional fourth group `(watch\?v=|embed/|v/|.+\?v=)?` can
take: absent, one of the three literals, or a nonempty newline-free run
followed by the literal `?v=`. -/
def FormShape (f : List Char) : Prop :=
  f = [] ∨ f = "watch?v=".toList ∨ f = "embed/".toList ∨ f = "v/".toList ∨
    ∃ t, t ≠ [] ∧ t.all notNL = true ∧ f = t ++ "?v=".toList

/-- A recognized prefix of an accepted URL: optional scheme, optional
`www.` part, one of the two hosts with its slash, and a form group, in
that order.  The 11-character identifier of an accepted URL sits directly
after such a prefix. -/
def RecognizedPfx (p : List Char) : Prop :=
  ∃ sch w h f,
    (sch = [] ∨ sch = "http://".toList ∨ sch = "https://".toList) ∧
    (w = [] ∨ w = "www.".toList) ∧
    (h = "youtube.com/".toList ∨ h = "youtu.be/".toList) ∧
    FormShape f ∧ p = sch ++ w ++ h ++ f

theorem stripPfx_eq_some {p r t : List Char} (h : stripPfx p r = some t) :
    r = p ++ t := by
  induction p generalizing r with
  | nil => simpa [stripPfx] using h
  | cons c cs ih =>
    cases r with
    | nil => simp [stripPfx] at h
    | cons d ds =>
      simp only [stripPfx] at h
      split at h
      · next heq => simp [heq, ih h]
      · exact absurd h (by simp)

theorem stripPfx_append (p t : List Char) : stripPfx p (p ++ t) = some t := by
  induction p with
  | nil => rfl
  | cons c cs ih => simp [stripPfx, ih]

theorem afterPfx_eq_true {p r : List Char} {k : List Char → Bool}
    (h : afterPfx p r k = true) : ∃ t, r = p ++ t ∧ k t = true := by
  unfold afterPfx at h
  cases hs : stripPfx p r with
  | none => rw [hs] at h; exact absurd h (by simp)
  | some t => rw [hs] at h; exact ⟨t, stripPfx_eq_some hs, h⟩

/-- An input accepted by `hasIdAt` starts with an 11-character identifier. -/
theorem hasIdAt_decomp {r : List Char} (h : hasIdAt r = true) :
    ∃ m rest, r = m ++ rest ∧ m.length = 11 ∧ m.all isIdChar = true := by
  unfold hasIdAt at h
  simp only [Bool.and_eq_true, decide_eq_true_eq] at h
  exact ⟨r.take 11, r.drop 11, (r.take_append_drop 11).symm,
    by simp [List.length_take]; omega, h.1.2⟩

/-- An input accepted by `scanQV` decomposes as a nonempty newline-free run,
the literal `?v=`, the identifier and a remainder. -/
theorem scanQV_decomp {r : List Char} (h : scanQV r = true) :
    ∃ t m rest, r = (t ++ "?v=".toList) ++ m ++ rest ∧ t ≠ [] ∧
      t.all notNL = true ∧ m.length = 11 ∧ m.all isIdChar = true := by
  induction r with
  | nil => simp [scanQV] at h
  | cons c rs ih =>
    simp only [scanQV, Bool.and_eq_true, Bool.or_eq_true] at h
    rcases h with ⟨hc, hor | hscan⟩
    · obtain ⟨t, ht, hid⟩ := afterPfx_eq_true hor
      obtain ⟨m, rest, hmr, hlen, hall⟩ := hasIdAt_decomp hid
      exact ⟨[c], m, rest, by simp [ht, hmr], by simp, by simp [hc],
        hlen, hall⟩
    · obtain ⟨t, m, rest, hmr, hne, hall, hlen, hid⟩ := ih hscan
      exact ⟨c :: t, m, rest, by simp [hmr], by simp, by simp [hc, hall],
        hlen, hid⟩

/-- An input accepted by `tailMatch` decomposes as a form group, the
identifier and a remainder. -/
theorem tailMatch_decomp {r : List Char} (h : tailMatch r = true) :
    ∃ f m rest, r = f ++ m ++ rest ∧ FormShape f ∧
      m.length = 11 ∧ m.all isIdChar = true := by
  unfold tailMatch at h
  simp only [Bool.or_eq_true] at h
  rcases h with ((((h | h) | h) | h) | h)
  · obtain ⟨t, ht, hid⟩ := afterPfx_eq_true h
    obtain ⟨m, rest, hmr, hlen, hall⟩ := hasIdAt_decomp hid
    exact ⟨_, m, rest, by simp [ht, hmr], Or.inr (Or.inl rfl), hlen, hall⟩
  · obtain ⟨t, ht, hid⟩ := afterPfx_eq_true h
    obtain ⟨m, rest, hmr, hlen, hall⟩ := hasIdAt_decomp hid
    exact ⟨_, m, rest, by simp [ht, hmr], Or.inr (Or.inr (Or.inl rfl)),
      hlen, hall⟩
  · obtain ⟨t, ht, hid⟩ := afterPfx_eq_true h
    obtain ⟨m, rest, hmr, hlen, hall⟩ := hasIdAt_decomp hid
    exact ⟨_, m, rest, by simp [ht, hmr],
      Or.inr (Or.inr (Or.inr (Or.inl rfl))), hlen, hall⟩
  · obtain ⟨t, m, rest, hmr, hne, hnl, hlen, hall⟩ := scanQV_decomp h
    exact ⟨t ++ "?v=".toList, m, rest, hmr,
      Or.inr (Or.inr (Or.inr (Or.inr ⟨t, hne, hnl, rfl⟩))), hlen, hall⟩
  · obtain ⟨m, rest, hmr, hlen, hall⟩ := hasIdAt_decomp h
    exact ⟨[], m, rest, by simp [hmr], Or.inl rfl, hlen, hall⟩

/-- C3: the validator never accepts a string lacking the 11-character
identifier segment.  Every accepted string decomposes as a recognized prefix
(scheme, optional `www.`, host, form group), then 11 characters drawn from
`[a-zA-Z0-9_-]`, then a remainder; so a string with no such segment in such
a position is rejected. -/
theorem validate_requires_id_segment (s : String) (h : validate s = true) :
    ∃ p m rest, s.data = p ++ m ++ rest ∧ RecognizedPfx p ∧
      m.length = 11 ∧ m.all isIdChar = true := by
  have hmain : ∀ sch r, (sch = [] ∨ sch = "http://".toList ∨
      sch = "https://".toList) → wwwMatch r = true →
      ∃ p m rest, sch ++ r = p ++ m ++ rest ∧ RecognizedPfx p ∧
        m.length = 11 ∧ m.all isIdChar = true := by
    intro sch r hsch hw
    have hhost : ∀ w r2, (w = [] ∨ w = "www.".toList) → hostMatch r2 = true →
        ∃ p m rest, sch ++ w ++ r2 = p ++ m ++ rest ∧ RecognizedPfx p ∧
          m.length = 11 ∧ m.all isIdChar = true := by
      intro w r2 hwshape hh
      unfold hostMatch at hh
      simp only [Bool.or_eq_true] at hh
      have htail : ∀ hst t2, (hst = "youtube.com/".toList ∨
          hst = "youtu.be/".toList) → r2 = hst ++ t2 → tailMatch t2 = true →
          ∃ p m rest, sch ++ w ++ r2 = p ++ m ++ rest ∧ RecognizedPfx p ∧
            m.length = 11 ∧ m.all isIdChar = true := by
        intro hst t2 hshape hr2 ht
        obtain ⟨f, m, rest, hfm, hform, hlen, hall⟩ := tailMatch_decomp ht
        refine ⟨sch ++ w ++ hst ++ f, m, rest, ?_,
          ⟨sch, w, hst, f, hsch, hwshape, hshape, hform, rfl⟩, hlen, hall⟩
        simp [hr2, hfm, List.append_assoc]
      rcases hh with hh | hh
      · obtain ⟨t2, hr2, ht⟩ := afterPfx_eq_true hh
        exact htail _ t2 (Or.inl rfl) hr2 ht
      · obtain ⟨t2, hr2, ht⟩ := afterPfx_eq_true hh
        exact htail _ t2 (Or.inr rfl) hr2 ht
    unfold wwwMatch at hw
    simp only [Bool.or_eq_true] at hw
    rcases hw with hw | hw
    · obtain ⟨t, ht, hh⟩ := afterPfx_eq_true hw
      have := hhost "www.".toList t (Or.inr rfl) hh
      simpa [ht, List.append_assoc] using this
    · have := hhost [] r (Or.inl rfl) hw
      simpa using this
  unfold validate matchYoutube at h
  simp only [Bool.or_eq_true] at h
  rcases h with (h | h) | h
  · obtain ⟨t, ht, hw⟩ := afterPfx_eq_true h
    have := hmain "http://".toList t (Or.inr (Or.inl rfl)) hw
    rwa [← ht] at this
  · obtain ⟨t, ht, hw⟩ := afterPfx_eq_true h
    have := hmain "https://".toList t (Or.inr (Or.inr rfl)) hw
    rwa [← ht] at this
  · have := hmain [] s.data (Or.inl rfl) h
    simpa using this

/-- Witness for C3 at a concrete accepted URL. -/
theorem validate_requires_id_segment_witness :
    validate "https://youtu.be/dQw4w9WgXcQ" = true ∧
    (∃ p m rest, "https://youtu.be/dQw4w9WgXcQ".data = p ++ m ++ rest ∧
      RecognizedPfx p ∧ m.length = 11 ∧ m.all isIdChar = true) :=
  ⟨by decide, validate_requires_id_segment _ (by decide)⟩

theorem afterPfx_append (p t : List Char) (k : List Char → Bool) :
    afterPfx p (p ++ t) k = k t := by
  simp [afterPfx, stripPfx_append]

/-- An exact 11-character identifier with nothing after it is accepted by
`hasIdAt`. -/
theorem hasIdAt_of_exact {id : List Char} (h1 : id.length = 11)
    (h2 : id.all isIdChar = true) : hasIdAt id = true := by
  unfold hasIdAt
  rw [List.take_of_length_le (by omega), List.drop_eq_nil_of_le (by omega)]
  simp [matchRest, h1, h2]

theorem bool_or_of_left {a b : Bool} (h : a = true) : (a || b) = true := by
  simp [h]

theorem bool_or_of_right {a b : Bool} (h : b = true) : (a || b) = true := by
  simp [h]

/-- C7: the validator accepts the three standard URL forms for any
11-character identifier drawn from `[a-zA-Z0-9_-]`. -/
theorem validate_accepts_standard_forms (id : List Char)
    (h1 : id.length = 11) (h2 : id.all isIdChar = true) :
    validate (String.mk ("https://www.youtube.com/watch?v=".toList ++ id)) = true ∧
    validate (String.mk ("https://youtu.be/".toList ++ id)) = true ∧
    validate (String.mk ("youtube.com/embed/".toList ++ id)) = true := by
  have hid : hasIdAt id = true := hasIdAt_of_exact h1 h2
  refine ⟨?_, ?_, ?_⟩
  · show matchYoutube ("https://www.youtube.com/watch?v=".toList ++ id) = true
    have e : "https://www.youtube.com/watch?v=".toList =
        "https://".toList ++ "www.".toList ++ "youtube.com/".toList ++
          "watch?v=".toList := by decide
    rw [e]
    simp only [List.append_assoc]
    unfold matchYoutube
    refine bool_or_of_left (bool_or_of_right ?_)
    rw [afterPfx_append]
    unfold wwwMatch
    refine bool_or_of_left ?_
    rw [afterPfx_append]
    unfold hostMatch
    refine bool_or_of_left ?_
    rw [afterPfx_append]
    unfold tailMatch
    refine bool_or_of_left (bool_or_of_left (bool_or_of_left
      (bool_or_of_left ?_)))
    rw [afterPfx_append]
    exact hid
  · show matchYoutube ("https://youtu.be/".toList ++ id) = true
    have e : "https://youtu.be/".toList =
        "https://".toList ++ "youtu.be/".toList := by decide
    rw [e]
    simp only [List.append_assoc]
    unfold matchYoutube
    refine bool_or_of_left (bool_or_of_right ?_)
    rw [afterPfx_append]
    unfold wwwMatch
    refine bool_or_of_right ?_
    unfold hostMatch
    refine bool_or_of_right ?_
    rw [afterPfx_append]
    unfold tailMatch
    refine bool_or_of_right ?_
    exact hid
  · show matchYoutube ("youtube.com/embed/".toList ++ id) = true
    have e : "youtube.com/embed/".toList =
        "youtube.com/".toList ++ "embed/".toList := by decide
    rw [e]
    simp only [List.append_assoc]
    unfold matchYoutube
    refine bool_or_of_right ?_
    unfold wwwMatch
    refine bool_or_of_right ?_
    unfold hostMatch
    refine bool_or_of_left ?_
    rw [afterPfx_append]
    unfold tailMatch
    refine bool_or_of_left (bool_or_of_left (bool_or_of_left
      (bool_or_of_right ?_)))
    rw [afterPfx_append]
    exact hid

/-- Witness for C7 at the identifier consisting of eleven letters A. -/
theorem validate_accepts_standard_forms_witness :
    validate (String.mk ("https://www.youtube.com/watch?v=".toList ++
      "AAAAAAAAAAA".toList)) = true ∧
    validate (String.mk ("https://youtu.be/".toList ++
      "AAAAAAAAAAA".toList)) = true ∧
    validate (String.mk ("youtube.com/embed/".toList ++
      "AAAAAAAAAAA".toList)) = true :=
  validate_accepts_standard_forms "AAAAAAAAAAA".toList (by decide) (by decide)

/-!
Dispatch worker `download_video_task`.  The two yt-dlp calls (the metadata
probe via `extract_info(download=False)` and the fetch via
`extract_info(download=True)`) are the opaque collaborator; an environment
records how each call would end: with a result, with a
`yt_dlp.utils.DownloadError`, or with any other exception.  `uuid4().hex`
is likewise recorded in the environment as an arbitrary character string.
-/

/-- Result of the worker, the dict `{"status": ..., "message": ...}`
returned by `download_video_task`. -/
structure Outcome where
  status : List Char
  message : List Char
deriving DecidableEq, Repr

/-- How the probe call `ydl.extract_info(youtube_url, download=False)` ends:
an info dict carrying an optional `duration` and an optional `title`, a
`DownloadError` with message `msg`, or any other exception carrying `msg`. -/
inductive ProbeOutcome where
  | ok (duration : Option Nat) (title : Option (List Char))
  | raiseDownloadError (msg : List Char)
  | raiseOther (msg : List Char)
deriving DecidableEq, Repr

/-- How the fetch call `ydl.extract_info(youtube_url, download=True)` ends:
an info dict carrying an optional `title`, a `DownloadError`, or any other
exception. -/
inductive FetchOutcome where
  | ok (title : Option (List Char))
  | raiseDownloadError (msg : List Char)
  | raiseOther (msg : List Char)
deriving DecidableEq, Repr

/-- Environment of one worker invocation: the behavior of the two
collaborator calls and the hex digest the uuid module would produce. -/
structure Env where
  probe : ProbeOutcome
  fetch : FetchOutcome
  uuidHex : List Char
deriving DecidableEq, Repr

/-- Python truthiness-and-comparison `duration and duration > MAX_VIDEO_DURATION_SECONDS`:
a missing or zero duration is falsy and skips the check. -/
def durationExceedsLimit (duration : Option Nat) : Bool :=
  match duration with
  | none => false
  | some d => (!(d == 0)) && decide (MAX_VIDEO_DURATION_SECONDS < d)

/-- Python `str` of an optional string as used in the success f-string,
where a missing title prints as `None`. -/
def pyStrOpt (t : Option (List Char)) : List Char := t.getD "None".toList

/-- Model of `info_dict.get('title', 'video')`. -/
def videoTitle (t : Option (List Char)) : List Char := t.getD "video".toList

/-- Model of `re.sub(r'[<>:"/\\|?*]', '_', video_title)`: each character of
the class is replaced by an underscore, all others are kept. -/
def sanitized_title (video_title : List Char) : List Char :=
  video_title.map fun c =>
    if ['<', '>', ':', '"', '/', '\\', '|', '?', '*'].contains c then '_' else c

/-- Model of `f"{sanitized_title}_{uuid.uuid4().hex}.%(ext)s"`. -/
def unique_filename (sanitized uuidHex : List Char) : List Char :=
  sanitized ++ "_".toList ++ uuidHex ++ ".%(ext)s".toList

/-- Model of `os.path.join(download_path, unique_filename)` for the shapes
occurring here (a nonempty relative directory and a relative file name). -/
def pathJoin (a b : List Char) : List Char := a ++ "/".toList ++ b

/-- The fixed message returned when a non-`DownloadError` exception escapes
the worker body. -/
def unexpectedMsg : List Char :=
  "An unexpected error occurred during download. Please try again later.".toList

/-- Everything `download_video_task` does between semaphore acquisition and
release, given the environment: probe, duration check, filename derivation,
fetch, and the translation of exceptions by the `except` clauses.  Returns
the worker's outcome dict, the number of fetch invocations performed, and
the output template passed to the fetch (absent when the fetch never
runs). -/
def taskBody (env : Env) (download_path : List Char) : Outcome × Nat × Option (List Char) :=
  match env.probe with
  | ProbeOutcome.raiseDownloadError m =>
      (⟨"error".toList, "Failed to download video: ".toList ++ m⟩, 0, none)
  | ProbeOutcome.raiseOther _ => (⟨"error".toList, unexpectedMsg⟩, 0, none)
  | ProbeOutcome.ok duration title =>
      if durationExceedsLimit duration then
        (⟨"error".toList, "Video duration exceeds the allowed limit.".toList⟩, 0, none)
      else
        let outtmpl := pathJoin download_path
          (unique_filename (sanitized_title (videoTitle title)) env.uuidHex)
        match env.fetch with
        | FetchOutcome.ok t =>
            (⟨"success".toList, "Successfully downloaded ".toList ++ pyStrOpt t⟩,
              1, some outtmpl)
        | FetchOutcome.raiseDownloadError m =>
            (⟨"error".toList, "Failed to download video: ".toList ++ m⟩, 1, some outtmpl)
        | FetchOutcome.raiseOther _ =>
            (⟨"error".toList, unexpectedMsg⟩, 1, some outtmpl)

/-- One invocation of `download_video_task` that has been scheduled and whose
blocking acquire has succeeded: the `async with download_semaphore` block
acquires a slot, the body runs to one of its exits, and leaving the block
releases the slot before the `except`/`finally` clauses complete the
invocation. -/
def download_video_task (env : Env) (download_path : List Char) (g : Gate) :
    (Outcome × Nat × Option (List Char)) × Gate :=
  let g1 := g.acquireSlot
  let result := taskBody env download_path
  let g2 := g1.releaseSlot
  (result, g2)

/-- C2: an invocation of the worker that successfully acquired a gate slot
releases it exactly once whatever the body does — probe failure, duration
rejection, fetch failure, unexpected exception or success — so the gate
returns to its state from before the acquisition. -/
theorem task_restores_gate (env : Env) (download_path : List Char) (g : Gate)
    (hv : 0 < g.value) :
    (download_video_task env download_path g).2 = g := by
  obtain ⟨v, hld⟩ := g
  simp only [Gate.value] at hv
  simp only [download_video_task, Gate.acquireSlot, Gate.releaseSlot,
    Gate.mk.injEq]
  omega

/-- Witness for C2 at a concrete environment and the freshly created gate. -/
theorem task_restores_gate_witness :
    (download_video_task
      ⟨ProbeOutcome.raiseOther "boom".toList, FetchOutcome.ok none, "u".toList⟩
      DOWNLOAD_DIR initialGate).2 = initialGate :=
  task_restores_gate _ _ _ (by decide)

/-- C4: when the probe reports a duration above
`MAX_VIDEO_DURATION_SECONDS`, the worker body returns the duration error
outcome, performs zero fetch invocations and passes no output template. -/
theorem duration_exceeded_skips_fetch (env : Env) (download_path : List Char)
    (d : Nat) (title : Option (List Char))
    (hp : env.probe = ProbeOutcome.ok (some d) title)
    (hd : MAX_VIDEO_DURATION_SECONDS < d) :
    taskBody env download_path =
      (⟨"error".toList, "Video duration exceeds the allowed limit.".toList⟩,
        0, none) := by
  have hz : (d == 0) = false := by
    have : d ≠ 0 := by
      intro h
      rw [h] at hd
      exact absurd hd (by decide)
    simpa using this
  unfold taskBody
  rw [hp]
  simp [durationExceedsLimit, hz, hd]

/-- Witness for C4 with a reported duration of 4000 seconds against the
ceiling of 3600. -/
theorem duration_exceeded_skips_fetch_witness :
    taskBody ⟨ProbeOutcome.ok (some 4000) (some "t".toList),
        FetchOutcome.ok (some "t".toList), "u".toList⟩ DOWNLOAD_DIR =
      (⟨"error".toList, "Video duration exceeds the allowed limit.".toList⟩,
        0, none) :=
  duration_exceeded_skips_fetch _ DOWNLOAD_DIR 4000 (some "t".toList) rfl
    (by decide)

/-- C8: two dispatches whose probes reported the same title derive distinct
output filenames whenever their generated hex suffixes differ. -/
theorem unique_filenames_distinct (title u1 u2 : List Char) (hu : u1 ≠ u2) :
    unique_filename (sanitized_title title) u1 ≠
      unique_filename (sanitized_title title) u2 := by
  intro h
  unfold unique_filename at h
  exact hu (List.append_cancel_left (List.append_cancel_right h))

/-- Witness for C8 at a shared title and two concrete distinct suffixes. -/
theorem unique_filenames_distinct_witness :
    unique_filename (sanitized_title "My Video: Part 1".toList) "0a1b".toList ≠
      unique_filename (sanitized_title "My Video: Part 1".toList) "0a1c".toList :=
  unique_filenames_distinct _ _ _ (by decide)

/-- C9: filename derivation keeps the title's length, replaces each
occurrence of a character from `< > : " / \ | ? *` by an underscore, keeps
every other character, and places the suffix between the sanitized base name
and the extension placeholder. -/
theorem sanitize_replaces_unsafe (title u : List Char) (i : Nat)
    (hi : i < title.length) :
    (sanitized_title title).length = title.length ∧
    (sanitized_title title).get ⟨i, by simpa [sanitized_title] using hi⟩ =
      (if ['<', '>', ':', '"', '/', '\\', '|', '?', '*'].contains
          (title.get ⟨i, hi⟩) then '_' else title.get ⟨i, hi⟩) ∧
    unique_filename (sanitized_title title) u =
      sanitized_title title ++ "_".toList ++ u ++ ".%(ext)s".toList := by
  refine ⟨by simp [sanitized_title], ?_, rfl⟩
  simp [sanitized_title]

/-- Witness for C9 on a title whose third character is a colon. -/
theorem sanitize_replaces_unsafe_witness :
    (sanitized_title "ab:cd".toList).length = "ab:cd".toList.length ∧
    (sanitized_title "ab:cd".toList).get ⟨2, by decide⟩ =
      (if ['<', '>', ':', '"', '/', '\\', '|', '?', '*'].contains
          ("ab:cd".toList.get ⟨2, by decide⟩) then '_'
        else "ab:cd".toList.get ⟨2, by decide⟩) ∧
    unique_filename (sanitized_title "ab:cd".toList) "u0".toList =
      sanitized_title "ab:cd".toList ++ "_".toList ++ "u0".toList ++
        ".%(ext)s".toList :=
  sanitize_replaces_unsafe "ab:cd".toList "u0".toList 2 (by decide)

/-- C10: a worker run ended by an exception that is not a `DownloadError`
yields the error outcome with the one fixed message, whatever message the
exception itself carried; only a `DownloadError` contributes its own message
to the outcome. -/
theorem unexpected_error_fixed_message (env : Env) (download_path m : List Char) :
    (env.probe = ProbeOutcome.raiseOther m →
      (taskBody env download_path).1 = ⟨"error".toList, unexpectedMsg⟩) ∧
    (∀ duration title, env.probe = ProbeOutcome.ok duration title →
      durationExceedsLimit duration = false →
      env.fetch = FetchOutcome.raiseOther m →
      (taskBody env download_path).1 = ⟨"error".toList, unexpectedMsg⟩) ∧
    (env.probe = ProbeOutcome.raiseDownloadError m →
      (taskBody env download_path).1 =
        ⟨"error".toList, "Failed to download video: ".toList ++ m⟩) := by
  refine ⟨?_, ?_, ?_⟩
  · intro hp
    unfold taskBody
    rw [hp]
  · intro duration title hp hd hf
    unfold taskBody
    rw [hp]
    simp [hd, hf]
  · intro hp
    unfold taskBody
    rw [hp]

/-- Witness for C10 at a concrete environment whose probe raises a
`ValueError`-like exception carrying an internal message. -/
theorem unexpected_error_fixed_message_witness :
    (taskBody ⟨ProbeOutcome.raiseOther "internal secret".toList,
        FetchOutcome.ok none, "u".toList⟩ DOWNLOAD_DIR).1 =
      ⟨"error".toList, unexpectedMsg⟩ :=
  (unexpected_error_fixed_message _ DOWNLOAD_DIR "internal secret".toList).1 rfl

/-!
The `POST /download` handler `download_video`.  It validates the submitted
URL, performs the non-blocking saturation check `download_semaphore.locked()`,
and either raises an `HTTPException` (whose detail dict carries the `status`
and `message` fields) or schedules `download_video_task` and answers 202.
The model returns the response, whether a background task was scheduled, and
the gate as the handler leaves it.
-/

/-- An HTTP response of the handler: status code plus the `status` and
`message` fields of the JSON payload (for the 400 and 429 paths these are
the fields of the `HTTPException` detail dict). -/
structure DownloadResponse where
  statusCode : Nat
  bodyStatus : List Char
  bodyMessage : List Char
deriving DecidableEq, Repr

/-- Message of the 400 response. -/
def invalidUrlMsg : List Char :=
  "Invalid YouTube URL provided. Please enter a valid YouTube link (e.g., https://www.youtube.com/watch?v=example or https://youtu.be/example).".toList

/-- Message of the 429 response. -/
def busyMsg : List Char :=
  "Server is currently busy with other downloads. Please try again shortly.".toList

/-- Message of the 202 response. -/
def acceptedMsg (youtube_url : String) : List Char :=
  ("Download initiated for " ++ youtube_url ++
    ". This process runs in the background.").toList

/-- The `POST /download` handler given the gate state it observes. -/
def download_video (youtube_url : String) (g : Gate) :
    DownloadResponse × Bool × Gate :=
  if validate youtube_url = false then
    (⟨400, "error".toList, invalidUrlMsg⟩, false, g)
  else if g.isLocked then
    (⟨429, "error".toList, busyMsg⟩, false, g)
  else
    (⟨202, "processing".toList, acceptedMsg youtube_url⟩, true, g)

/-- C5: the handler answers 400 with an error body on an invalid URL, 429
with an error body and no scheduled task when the saturation check observes
all `MAX_CONCURRENT_DOWNLOADS` slots held, and otherwise 202 with a
processing body and the background task scheduled. -/
theorem download_route_responses (youtube_url : String) (g : Gate) :
    (validate youtube_url = false →
      download_video youtube_url g =
        (⟨400, "error".toList, invalidUrlMsg⟩, false, g)) ∧
    (validate youtube_url = true → GateReachable g →
      g.holders = MAX_CONCURRENT_DOWNLOADS →
      download_video youtube_url g =
        (⟨429, "error".toList, busyMsg⟩, false, g)) ∧
    (validate youtube_url = true → g.isLocked = false →
      download_video youtube_url g =
        (⟨202, "processing".toList, acceptedMsg youtube_url⟩, true, g)) := by
  refine ⟨?_, ?_, ?_⟩
  · intro hval
    simp [download_video, hval]
  · intro hval hreach hfull
    have hsum := gateReachable_value_add_holders hreach
    have hzero : g.value = 0 := by omega
    simp [download_video, hval, Gate.isLocked, hzero]
  · intro hval hlocked
    simp [download_video, hval, hlocked]

/-- Witness for C5: the saturated-gate branch at a fully held gate reached
by three acquisitions. -/
theorem download_route_responses_witness :
    download_video "https://youtu.be/0123456789a"
        initialGate.acquireSlot.acquireSlot.acquireSlot =
      (⟨429, "error".toList, busyMsg⟩, false,
        initialGate.acquireSlot.acquireSlot.acquireSlot) :=
  (download_route_responses "https://youtu.be/0123456789a" _).2.1 (by decide)
    (((GateReachable.init.acq (by decide)).acq (by decide)).acq (by decide))
    (by decide)

/-- C6: the handler leaves the gate exactly as it found it on every response
path; it only reads the saturation bit, and acquisition happens solely
inside the background worker. -/
theorem download_route_preserves_gate (youtube_url : String) (g : Gate) :
    (download_video youtube_url g).2.2 = g := by
  unfold download_video
  split
  · rfl
  · split <;> rfl
